import Mathlib

/-!
Shallow embedding of the real-time chat backend (Socket.IO handler and REST
chat controller) and verification of the frozen specification claims.

The JavaScript sources modelled here are:
- the socket handler file: sendMessage, markAsRead, addReaction, editMessage,
  deleteMessage, the presence map `onlineUsers`, connect/disconnect handlers;
- the REST chat controller: getMessages, addMessage, editMessage,
  deleteMessage.

Persisted MongoDB collections are modelled as Lean lists; Mongoose `Map`
fields as association lists; `new Date()` timestamps as explicit `Nat`
parameters; Mongo `_id`s as `Nat`s drawn from a fresh-id counter.
-/

/-- Image attachment object `{public_id, url, secure_url}` as built by the
socket sendMessage handler. -/
structure Image where
  public_id : String
  url : String
  secure_url : String
  deriving DecidableEq

/-- One entry of a message's `reactions` array: `{user, emoji, createdAt}`. -/
structure Reaction where
  user : String
  emoji : String
  createdAt : Nat
  deriving DecidableEq

/-- A persisted `Message` document.  `recipient` is an `Option` because the
REST addMessage computes it with `participants.find(...)`, which can miss.
`content` is an `Option` because the socket sendMessage handler only sets the
field when the payload value is truthy. -/
structure Msg where
  id : Nat
  sender : String
  recipient : Option String
  conversationId : String
  content : Option String
  image : Option Image
  file : Option String
  read : Bool
  edited : Bool
  editedAt : Option Nat
  deleted : Bool
  reactions : List Reaction
  createdAt : Nat
  deriving DecidableEq

/-- A persisted `Conversation` document.  `unreadCount` is the Mongoose
`Map` from participant id to unread count, modelled as an association list. -/
structure Conv where
  id : String
  participants : List String
  lastMessage : Option Nat
  unreadCount : List (String × Nat)
  deriving DecidableEq

/-- The persistence store plus the fresh-id counter used to mint `_id`s. -/
structure ChatState where
  messages : List Msg
  convs : List Conv
  nextId : Nat
  deriving DecidableEq

/-- Generic save-by-key: Mongoose `save` replaces the stored document with
the same key, or appends the document when no stored one matches. -/
def upsertBy [BEq β] (key : α → β) (l : List α) (a : α) : List α :=
  if l.any (fun x => key x == key a) then
    l.map (fun x => if key x == key a then a else x)
  else l ++ [a]

/-- `Map.get` on a Mongoose map field. -/
def mapGet [BEq β] (m : List (β × α)) (k : β) : Option α :=
  (m.find? (fun p => p.1 == k)).map Prod.snd

/-- `Map.set` on a Mongoose map field. -/
def mapSet [BEq β] (m : List (β × α)) (k : β) (v : α) : List (β × α) :=
  upsertBy Prod.fst m (k, v)

/-- `Map.delete` on a map field (used by the `onlineUsers` presence map). -/
def mapDelete [BEq β] (m : List (β × α)) (k : β) : List (β × α) :=
  m.filter (fun p => !(p.1 == k))

/-- The `|| 0` default applied by every unread-count read in the source. -/
def getOr0 (m : List (String × Nat)) (k : String) : Nat :=
  (mapGet m k).getD 0

/-- `Conversation.findById`. -/
def findConv (convs : List Conv) (cid : String) : Option Conv :=
  convs.find? (fun d => d.id == cid)

/-- `conversation.save()`. -/
def saveConv (convs : List Conv) (c : Conv) : List Conv :=
  upsertBy Conv.id convs c

/-- `Message.findById`. -/
def findMsg (msgs : List Msg) (mid : Nat) : Option Msg :=
  msgs.find? (fun m => m.id == mid)

/-- `message.save()`. -/
def saveMsg (msgs : List Msg) (m : Msg) : List Msg :=
  upsertBy Msg.id msgs m

section MapLemmas

variable {α : Type} {β : Type} [BEq β] [LawfulBEq β]

theorem find?_map_replace_self (key : α → β) (l : List α) (a : α)
    (h : l.any (fun x => key x == key a) = true) :
    (l.map (fun x => if key x == key a then a else x)).find?
      (fun x => key x == key a) = some a := by
  induction l with
  | nil => simp at h
  | cons x xs ih =>
    rw [List.map_cons]
    by_cases hx : (key x == key a) = true
    · rw [if_pos hx, List.find?_cons]
      simp only [beq_self_eq_true]
    · rw [Bool.not_eq_true] at hx
      rw [if_neg (by rw [hx]; exact Bool.false_ne_true), List.find?_cons]
      simp only [hx]
      rw [List.any_cons, Bool.or_eq_true] at h
      rcases h with h | h
      · rw [hx] at h
        exact absurd h Bool.false_ne_true
      · exact ih h

theorem find?_upsertBy_self (key : α → β) (l : List α) (a : α) :
    (upsertBy key l a).find? (fun x => key x == key a) = some a := by
  unfold upsertBy
  by_cases h : l.any (fun x => key x == key a) = true
  · rw [if_pos h]
    exact find?_map_replace_self key l a h
  · rw [if_neg h]
    rw [List.find?_append]
    rw [Bool.not_eq_true, List.any_eq_false] at h
    have h1 : l.find? (fun x => key x == key a) = none := by
      rw [List.find?_eq_none]
      exact h
    rw [h1, Option.none_or]
    exact List.find?_cons_of_pos _ (by simp)

theorem find?_upsertBy_other (key : α → β) (l : List α) (a : α) (k : β)
    (hk : k ≠ key a) :
    (upsertBy key l a).find? (fun x => key x == k) =
      l.find? (fun x => key x == k) := by
  have ha : (key a == k) = false := by
    rw [beq_eq_false_iff_ne]
    exact fun hc => hk hc.symm
  unfold upsertBy
  by_cases h : l.any (fun x => key x == key a) = true
  · rw [if_pos h]
    clear h
    induction l with
    | nil => rfl
    | cons x xs ih =>
      rw [List.map_cons]
      by_cases hx : (key x == key a) = true
      · have hxk : (key x == k) = false := by rw [eq_of_beq hx]; exact ha
        rw [if_pos hx, List.find?_cons, List.find?_cons]
        simp only [ha, hxk]
        exact ih
      · rw [Bool.not_eq_true] at hx
        rw [if_neg (by rw [hx]; exact Bool.false_ne_true)]
        rw [List.find?_cons, List.find?_cons]
        cases hxk : (key x == k) with
        | true => simp only [hxk]
        | false =>
          simp only [hxk]
          exact ih
  · rw [if_neg h]
    rw [List.find?_append]
    have h1 : List.find? (fun x => key x == k) [a] = none := by
      rw [List.find?_eq_none]
      intro x hx
      rw [List.mem_singleton] at hx
      subst hx
      simp [ha]
    rw [h1]
    cases List.find? (fun x => key x == k) l <;> rfl

theorem upsertBy_of_fresh (key : α → β) (l : List α) (a : α)
    (h : ∀ x ∈ l, (key x == key a) = false) :
    upsertBy key l a = l ++ [a] := by
  unfold upsertBy
  rw [if_neg]
  intro hc
  rw [List.any_eq_true] at hc
  obtain ⟨x, hx, hbeq⟩ := hc
  rw [h x hx] at hbeq
  exact Bool.false_ne_true hbeq

theorem mapGet_mapSet_self {α : Type} (m : List (β × α)) (k : β) (v : α) :
    mapGet (mapSet m k v) k = some v := by
  unfold mapGet mapSet
  have h := find?_upsertBy_self (Prod.fst (α := β) (β := α)) m (k, v)
  rw [h]
  rfl

theorem mapGet_mapSet_other {α : Type} (m : List (β × α)) (k k' : β) (v : α)
    (h : k' ≠ k) :
    mapGet (mapSet m k v) k' = mapGet m k' := by
  unfold mapGet mapSet
  rw [find?_upsertBy_other (Prod.fst (α := β) (β := α)) m (k, v) k' h]

theorem mapGet_mapDelete_self {α : Type} (m : List (β × α)) (k : β) :
    mapGet (mapDelete m k) k = none := by
  unfold mapGet mapDelete
  have h : List.find? (fun p => p.1 == k)
      (m.filter (fun p => !(p.1 == k))) = none := by
    rw [List.find?_eq_none]
    intro p hp hc
    rw [List.mem_filter] at hp
    rw [hc] at hp
    exact Bool.false_ne_true (by simpa using hp.2)
  rw [h]
  rfl

theorem findConv_saveConv_self (convs : List Conv) (c : Conv) :
    findConv (saveConv convs c) c.id = some c := by
  unfold findConv saveConv
  exact find?_upsertBy_self Conv.id convs c

theorem findMsg_saveMsg_self (msgs : List Msg) (m : Msg) :
    findMsg (saveMsg msgs m) m.id = some m := by
  unfold findMsg saveMsg
  exact find?_upsertBy_self Msg.id msgs m

theorem contains_iff_mem {γ : Type} [BEq γ] [LawfulBEq γ] (l : List γ) (a : γ) :
    l.contains a = true ↔ a ∈ l := by
  simp [List.contains]

end MapLemmas

/-- The reaction-toggle core of the `addReaction` socket handler: if the
caller already reacted with this emoji, the existing `(user, emoji)`
reactions are filtered out, else a new reaction with the current timestamp
is pushed. -/
def toggleReaction (reactions : List Reaction) (userId emoji : String)
    (now : Nat) : List Reaction :=
  if reactions.any (fun r => r.user == userId && r.emoji == emoji) then
    reactions.filter (fun r => !(r.user == userId && r.emoji == emoji))
  else
    reactions ++ [{ user := userId, emoji := emoji, createdAt := now }]

/-- Membership of a `(user, emoji)` pair in a reaction list: the reaction
set in the sense of the data model (a set keyed by user and emoji). -/
def hasReaction (reactions : List Reaction) (userId emoji : String) : Bool :=
  reactions.any (fun r => r.user == userId && r.emoji == emoji)

/-- Core round-trip lemma for the toggle: toggling the same `(user, emoji)`
pair twice restores the reaction set (membership of every pair). -/
theorem toggleReaction_toggleReaction (rs : List Reaction) (u e : String)
    (t1 t2 : Nat) (u' e' : String) :
    hasReaction (toggleReaction (toggleReaction rs u e t1) u e t2) u' e' =
      hasReaction rs u' e' := by
  unfold toggleReaction hasReaction
  by_cases h : rs.any (fun r => r.user == u && r.emoji == e) = true
  · rw [if_pos h]
    have h2 : (rs.filter (fun r => !(r.user == u && r.emoji == e))).any
        (fun r => r.user == u && r.emoji == e) = false := by
      rw [List.any_filter]
      have hfun : (fun r : Reaction =>
            !(r.user == u && r.emoji == e) && (r.user == u && r.emoji == e)) =
          (fun _ : Reaction => false) := by
        funext r
        exact Bool.not_and_self _
      rw [hfun, List.any_eq_false]
      intro r _ hc
      exact Bool.false_ne_true hc
    rw [if_neg (by rw [h2]; exact Bool.false_ne_true)]
    rw [List.any_append, List.any_filter]
    by_cases hpair : u = u' ∧ e = e'
    · obtain ⟨hu, he⟩ := hpair
      subst hu; subst he
      have hnew : List.any [({ user := u, emoji := e, createdAt := t2 } : Reaction)]
          (fun r => r.user == u && r.emoji == e) = true := by simp
      rw [hnew, Bool.or_true]
      exact h.symm
    · have hnew : List.any [({ user := u, emoji := e, createdAt := t2 } : Reaction)]
          (fun r => r.user == u' && r.emoji == e') = false := by
        rw [List.any_eq_false]
        intro r hr
        rw [List.mem_singleton] at hr
        subst hr
        intro hc
        rw [Bool.and_eq_true, beq_iff_eq, beq_iff_eq] at hc
        exact hpair ⟨hc.1, hc.2⟩
      rw [hnew, Bool.or_false]
      have hfun : (fun r : Reaction =>
            !(r.user == u && r.emoji == e) && (r.user == u' && r.emoji == e')) =
          (fun r : Reaction => r.user == u' && r.emoji == e') := by
        funext r
        by_cases hq : (r.user == u' && r.emoji == e') = true
        · have hp : (r.user == u && r.emoji == e) = false := by
            cases hm : (r.user == u && r.emoji == e) with
            | false => rfl
            | true =>
              rw [Bool.and_eq_true, beq_iff_eq, beq_iff_eq] at hm hq
              exact absurd ⟨hm.1 ▸ hq.1, hm.2 ▸ hq.2⟩ hpair
          rw [hq, hp]
          rfl
        · rw [Bool.not_eq_true] at hq
          rw [hq, Bool.and_false]
      rw [hfun]
  · rw [if_neg h]
    rw [Bool.not_eq_true] at h
    have happ : (rs ++ [({ user := u, emoji := e, createdAt := t1 } : Reaction)]).any
        (fun r => r.user == u && r.emoji == e) = true := by
      rw [List.any_append, h, Bool.false_or]
      simp
    rw [if_pos happ]
    rw [List.filter_append]
    have hself : rs.filter (fun r => !(r.user == u && r.emoji == e)) = rs := by
      rw [List.filter_eq_self]
      intro r hr
      rw [List.any_eq_false] at h
      cases hm : (r.user == u && r.emoji == e) with
      | true => exact absurd hm (h r hr)
      | false => rfl
    have hsing : List.filter (fun r => !(r.user == u && r.emoji == e))
        [({ user := u, emoji := e, createdAt := t1 } : Reaction)] = [] := by
      simp
    rw [hself, hsing, List.append_nil]

/-- Events the handlers emit: room broadcasts, direct-socket emits, and the
scoped error emits of the catch blocks. -/
inductive Event where
  | newMessage (room : String) (msgId : Nat)
  | messageNotification (socketId : String) (msgId : Nat)
  | messageError (socketId : String)
  | messagesRead (room : String) (reader : String) (messageIds : List Nat)
  | userTyping (room : String) (userId : String) (isTyping : Bool)
  | reactionUpdate (room : String) (msgId : Nat)
  | reactionError (socketId : String)
  | messageEdited (room : String) (msgId : Nat)
  | editError (socketId : String)
  | messageDeleted (room : String) (msgId : Nat) (deletedBy : String)
  | deleteError (socketId : String)
  | userStatus (userId : String) (status : String)
  deriving DecidableEq

/-- Which persistence call of the socket sendMessage handler throws, if any:
`newMessage.save()` or `conversation.save()`. -/
inductive FailAt where
  | noFail
  | msgSave
  | convSave
  deriving DecidableEq

/-- JavaScript truthiness of the `content` payload field: the handler only
sets `messagePayload.content` when `content` is truthy, and the empty string
is falsy. -/
def jsStr (s : Option String) : Option String :=
  match s with
  | some str => if str == "" then none else some str
  | none => none

/-- The message record built by the socket sendMessage handler:
`{sender, recipient, conversationId, read: false}` plus the optional
`content` and `image` fields. -/
def buildMsg (st : ChatState) (senderId recipientId convId : String)
    (content : Option String) (image : Option Image) (now : Nat) : Msg :=
  { id := st.nextId, sender := senderId, recipient := some recipientId,
    conversationId := convId, content := jsStr content, image := image,
    file := none, read := false, edited := false, editedAt := none,
    deleted := false, reactions := [], createdAt := now }

/-- The socket `sendMessage` handler.  `online` is the `onlineUsers` map at
the time of the call; `failAt` selects which persistence call (if any)
throws, in which case the catch block emits `messageError` to the sending
socket and the remaining steps are skipped. -/
def sendMessageF (st : ChatState) (online : List (String × String))
    (senderId senderSocket recipientId convId : String)
    (content : Option String) (image : Option Image) (now : Nat)
    (failAt : FailAt) : ChatState × List Event :=
  let msg := buildMsg st senderId recipientId convId content image now
  if failAt = FailAt.msgSave then
    (st, [Event.messageError senderSocket])
  else
    let st1 : ChatState :=
      { st with messages := saveMsg st.messages msg, nextId := st.nextId + 1 }
    if failAt = FailAt.convSave then
      (st1, [Event.messageError senderSocket])
    else
      let conv :=
        match findConv st1.convs convId with
        | none =>
            { id := convId, participants := [senderId, recipientId],
              lastMessage := some msg.id, unreadCount := [(recipientId, 1)] }
        | some c =>
            { c with lastMessage := some msg.id,
                     unreadCount := mapSet c.unreadCount recipientId
                       (getOr0 c.unreadCount recipientId + 1) }
      let st2 : ChatState := { st1 with convs := saveConv st1.convs conv }
      let notif :=
        match mapGet online recipientId with
        | some sid => [Event.messageNotification sid msg.id]
        | none => []
      (st2, Event.newMessage convId msg.id :: notif)

/-- The per-message effect of `Message.updateMany({_id: {$in: messageIds}},
{read: true})`. -/
def markOne (messageIds : List Nat) (m : Msg) : Msg :=
  if messageIds.contains m.id then { m with read := true } else m

/-- The socket `markAsRead` handler: sets `read=true` on every message whose
id is listed, then zeroes the caller's unread counter of the given
conversation (when it exists), then broadcasts the read receipt. -/
def markAsReadF (st : ChatState) (userId convId : String)
    (messageIds : List Nat) : ChatState × List Event :=
  let st1 : ChatState := { st with messages := st.messages.map (markOne messageIds) }
  let st2 : ChatState :=
    match findConv st1.convs convId with
    | none => st1
    | some conv =>
        { st1 with convs := (saveConv st1.convs
            { conv with unreadCount := mapSet conv.unreadCount userId 0 }) }
  (st2, [Event.messagesRead convId userId messageIds])

/-- The socket `addReaction` handler: toggle the `(user, emoji)` reaction on
the message, or emit `reactionError` when the message does not exist. -/
def addReactionF (st : ChatState) (userId userSocket : String)
    (messageId : Nat) (emoji : String) (now : Nat) : ChatState × List Event :=
  match findMsg st.messages messageId with
  | none => (st, [Event.reactionError userSocket])
  | some m =>
      let m2 := { m with reactions := toggleReaction m.reactions userId emoji now }
      ({ st with messages := saveMsg st.messages m2 },
        [Event.reactionUpdate m.conversationId messageId])

/-- The socket `editMessage` handler: only sender-ownership and existence are
checked; the new content is stored as given (no trimming, no empty-content
validation). -/
def editMessageSock (st : ChatState) (userId userSocket : String)
    (messageId : Nat) (content : Option String) (now : Nat) :
    ChatState × List Event :=
  match findMsg st.messages messageId with
  | none => (st, [Event.editError userSocket])
  | some m =>
      if !(m.sender == userId) then (st, [Event.editError userSocket])
      else
        let m2 := { m with content := content, edited := true, editedAt := some now }
        ({ st with messages := saveMsg st.messages m2 },
          [Event.messageEdited m.conversationId messageId])

/-- The socket `deleteMessage` handler: tombstones the content and clears
both the `image` and `file` fields. -/
def deleteMessageSock (st : ChatState) (userId userSocket : String)
    (messageId : Nat) : ChatState × List Event :=
  match findMsg st.messages messageId with
  | none => (st, [Event.deleteError userSocket])
  | some m =>
      if !(m.sender == userId) then (st, [Event.deleteError userSocket])
      else
        let m2 := { m with deleted := true,
                           content := some "This message has been deleted",
                           image := none, file := none }
        ({ st with messages := saveMsg st.messages m2 },
          [Event.messageDeleted m.conversationId messageId userId])

/-- Error responses of the REST chat controller: HTTP 400, 404 and 403. -/
inductive RestErr where
  | validation
  | notFound
  | forbidden
  deriving DecidableEq

/-- JavaScript `String.prototype.trim`: strip leading and trailing
whitespace (modelled over the string's character list so that it evaluates
inside the kernel). -/
def jsTrim (s : String) : String :=
  String.mk
    (((s.data.dropWhile Char.isWhitespace).reverse.dropWhile
      Char.isWhitespace).reverse)

/-- The check `!content || content.trim().length === 0` of the REST
controller (a missing or whitespace-only content). -/
def contentBlank : Option String → Bool
  | none => true
  | some s => jsTrim s == ""

/-- REST `editMessage`: validates the new content first, then existence,
then sender ownership; on success stores the trimmed content and the edited
flags. -/
def editMessageRest (st : ChatState) (userId : String) (messageId : Nat)
    (content : Option String) (now : Nat) : Except RestErr Msg × ChatState :=
  if contentBlank content then (Except.error RestErr.validation, st)
  else
    match findMsg st.messages messageId with
    | none => (Except.error RestErr.notFound, st)
    | some m =>
        if !(m.sender == userId) then (Except.error RestErr.forbidden, st)
        else
          let m2 := { m with content := some (jsTrim (content.getD "")),
                             edited := true, editedAt := some now }
          (Except.ok m2, { st with messages := saveMsg st.messages m2 })

/-- REST `deleteMessage`: same checks as the socket handler, but it only
clears the `image` field — the `file` field is left as it was. -/
def deleteMessageRest (st : ChatState) (userId : String) (messageId : Nat) :
    Except RestErr Unit × ChatState :=
  match findMsg st.messages messageId with
  | none => (Except.error RestErr.notFound, st)
  | some m =>
      if !(m.sender == userId) then (Except.error RestErr.forbidden, st)
      else
        let m2 := { m with deleted := true,
                           content := some "This message has been deleted",
                           image := none }
        (Except.ok (), { st with messages := saveMsg st.messages m2 })

/-- REST `addMessage`: validates that content or image is present, resolves
the conversation and the recipient, persists the message, and bumps the
unread counter of every participant other than the sender. -/
def addMessageR (st : ChatState) (userId convId : String)
    (content : Option String) (image : Option Image) (now : Nat) :
    Except RestErr Msg × ChatState :=
  if contentBlank content && image.isNone then (Except.error RestErr.validation, st)
  else
    match findConv st.convs convId with
    | none => (Except.error RestErr.notFound, st)
    | some conv =>
        if !(conv.participants.contains userId) then
          (Except.error RestErr.forbidden, st)
        else
          let recipientId := conv.participants.find? (fun p => !(p == userId))
          let msg : Msg :=
            { id := st.nextId, sender := userId, recipient := recipientId,
              conversationId := convId, content := some (jsTrim (content.getD "")),
              image := image, file := none, read := false, edited := false,
              editedAt := none, deleted := false, reactions := [],
              createdAt := now }
          let conv2 :=
            { conv with
                lastMessage := some msg.id,
                unreadCount := conv.participants.foldl
                  (fun acc p =>
                    if !(p == userId) then mapSet acc p (getOr0 acc p + 1)
                    else acc)
                  conv.unreadCount }
          (Except.ok msg,
            { st with messages := saveMsg st.messages msg,
                      convs := saveConv st.convs conv2,
                      nextId := st.nextId + 1 })

/-- Descending insertion by `createdAt`, modelling `sort({createdAt: -1})`. -/
def insertDesc (m : Msg) : List Msg → List Msg
  | [] => [m]
  | x :: xs =>
      if x.createdAt ≤ m.createdAt then m :: x :: xs else x :: insertDesc m xs

/-- Sort a message list by `createdAt` descending. -/
def sortByCreatedDesc (l : List Msg) : List Msg :=
  l.foldr insertDesc []

/-- REST `getMessages`: checks existence and participation, fetches one page
(`page`/`limit` query values, with `|| 1` and `|| 20` defaults), then marks
every unread message of the conversation addressed to the caller as read and
zeroes the caller's unread counter.  The returned page is the snapshot taken
before the marking, reversed to chronological order. -/
def getMessagesR (st : ChatState) (userId convId : String)
    (pageArg limitArg : Nat) : Except RestErr (List Msg) × ChatState :=
  match findConv st.convs convId with
  | none => (Except.error RestErr.notFound, st)
  | some conv =>
      if !(conv.participants.contains userId) then
        (Except.error RestErr.forbidden, st)
      else
        let page := if pageArg == 0 then 1 else pageArg
        let limit := if limitArg == 0 then 20 else limitArg
        let skip := (page - 1) * limit
        let pageMsgs :=
          (((sortByCreatedDesc
              (st.messages.filter (fun m => m.conversationId == convId))).drop
                skip).take limit)
        let msgs2 := st.messages.map (fun m =>
          if m.conversationId == convId && m.recipient == some userId
              && m.read == false
          then { m with read := true } else m)
        let conv2 := { conv with unreadCount := mapSet conv.unreadCount userId 0 }
        (Except.ok pageMsgs.reverse,
          { st with messages := msgs2, convs := saveConv st.convs conv2 })

/-- The process-wide `onlineUsers` map: `{ userId: socketId }`. -/
structure PresenceState where
  onlineUsers : List (String × String)
  deriving DecidableEq

/-- The connection handler's presence bookkeeping: `onlineUsers.set(userId,
socket.id)` followed by an `userStatus` online broadcast. -/
def connectUser (ps : PresenceState) (userId socketId : String) :
    PresenceState × List Event :=
  ({ onlineUsers := mapSet ps.onlineUsers userId socketId },
    [Event.userStatus userId "online"])

/-- The disconnect handler: `onlineUsers.delete(userId)` followed by an
unconditional `userStatus` offline broadcast.  It depends only on the bound
user id, not on which of the user's sockets dropped. -/
def disconnectUser (ps : PresenceState) (userId : String) :
    PresenceState × List Event :=
  ({ onlineUsers := mapDelete ps.onlineUsers userId },
    [Event.userStatus userId "offline"])

/-- One client operation applied to a fixed conversation `c`, as in the
claim "any finite sequence of sendMessage and markAsRead operations applied
to C, executed sequentially". -/
inductive ChatOp where
  | send (sender recipient : String) (content : Option String)
      (image : Option Image) (now : Nat)
  | mark (user : String) (messageIds : List Nat)
  deriving DecidableEq

/-- Apply one operation to conversation `c` (persistence succeeding). -/
def applyOp (c : String) (st : ChatState) (op : ChatOp) : ChatState :=
  match op with
  | ChatOp.send s r content image now =>
      (sendMessageF st [] s "" r c content image now FailAt.noFail).1
  | ChatOp.mark u l => (markAsReadF st u c l).1

/-- Apply a sequence of operations in order. -/
def applyOps (c : String) (st : ChatState) (ops : List ChatOp) : ChatState :=
  ops.foldl (applyOp c) st

/-- A message of conversation `c` addressed to `p` and still unread. -/
def unreadPred (c p : String) (m : Msg) : Bool :=
  m.conversationId == c && m.recipient == some p && m.read == false

/-- Number of persisted messages of `c` addressed to `p` with `read=false`. -/
def unreadMsgs (st : ChatState) (c p : String) : Nat :=
  st.messages.countP (unreadPred c p)

/-- Ids of the persisted messages of `c` addressed to `p` with
`read=false`. -/
def unreadIds (st : ChatState) (c p : String) : List Nat :=
  (st.messages.filter (unreadPred c p)).map Msg.id

/-- The stored unread counter of `p` for conversation `c`, read the way the
source reads it (`unreadCount.get(p) || 0`, and 0 when the conversation does
not exist). -/
def counterOf (st : ChatState) (c p : String) : Nat :=
  match findConv st.convs c with
  | none => 0
  | some conv => getOr0 conv.unreadCount p

/-- A trace is well-formed when every markAsRead call passes exactly the
list of ids of the caller's currently-unread messages in the conversation
(the normal read-receipt produced by a client viewing the conversation). -/
def goodTrace (c : String) (st : ChatState) : List ChatOp → Bool
  | [] => true
  | op :: rest =>
      (match op with
       | ChatOp.send _ _ _ _ _ => true
       | ChatOp.mark u l => l == unreadIds st c u) && goodTrace c (applyOp c st op) rest

/-- The empty store. -/
def initState : ChatState := { messages := [], convs := [], nextId := 0 }

/-- A sample persisted message used by concrete witnesses. -/
def mkMsg (i : Nat) (s : String) (r : Option String) (c : String) : Msg :=
  { id := i, sender := s, recipient := r, conversationId := c,
    content := some "hello", image := none, file := none, read := false,
    edited := false, editedAt := none, deleted := false, reactions := [],
    createdAt := i }

theorem markOne_id (l : List Nat) (m : Msg) : (markOne l m).id = m.id := by
  unfold markOne
  split <;> rfl

theorem markOne_conversationId (l : List Nat) (m : Msg) :
    (markOne l m).conversationId = m.conversationId := by
  unfold markOne
  split <;> rfl

theorem markOne_recipient (l : List Nat) (m : Msg) :
    (markOne l m).recipient = m.recipient := by
  unfold markOne
  split <;> rfl

theorem saveMsg_fresh (msgs : List Msg) (m : Msg)
    (h : ∀ x ∈ msgs, x.id ≠ m.id) : saveMsg msgs m = msgs ++ [m] := by
  unfold saveMsg
  apply upsertBy_of_fresh
  intro x hx
  rw [beq_eq_false_iff_ne]
  exact h x hx

theorem findConv_eq_some_id (convs : List Conv) (cid : String) (cv : Conv)
    (h : findConv convs cid = some cv) : cv.id = cid := by
  unfold findConv at h
  have hb := List.find?_some h
  exact eq_of_beq hb

theorem findConv_saveConv_eq (convs : List Conv) (cv : Conv) (cid : String)
    (h : cv.id = cid) : findConv (saveConv convs cv) cid = some cv := by
  subst h
  exact findConv_saveConv_self convs cv

theorem getOr0_mapSet_self (m : List (String × Nat)) (k : String) (v : Nat) :
    getOr0 (mapSet m k v) k = v := by
  unfold getOr0
  rw [mapGet_mapSet_self]
  rfl

theorem getOr0_mapSet_other (m : List (String × Nat)) (k k' : String) (v : Nat)
    (h : k' ≠ k) : getOr0 (mapSet m k v) k' = getOr0 m k' := by
  unfold getOr0
  rw [mapGet_mapSet_other m k k' v h]

theorem counterOf_eq_some (st : ChatState) (c p : String) (cv : Conv)
    (h : findConv st.convs c = some cv) :
    counterOf st c p = getOr0 cv.unreadCount p := by
  unfold counterOf
  rw [h]

theorem counterOf_eq_none (st : ChatState) (c p : String)
    (h : findConv st.convs c = none) : counterOf st c p = 0 := by
  unfold counterOf
  rw [h]

theorem countP_congr_mem {γ : Type} {l : List γ} {p q : γ → Bool}
    (h : ∀ a ∈ l, p a = q a) : l.countP p = l.countP q := by
  induction l with
  | nil => rfl
  | cons x xs ih =>
    rw [List.countP_cons, List.countP_cons, h x (by simp),
      ih (fun a ha => h a (by simp [ha]))]

theorem sendMessageF_noFail_state (st : ChatState)
    (online : List (String × String)) (s sk r c : String)
    (content : Option String) (image : Option Image) (now : Nat) :
    (sendMessageF st online s sk r c content image now FailAt.noFail).1 =
      { messages := saveMsg st.messages (buildMsg st s r c content image now),
        convs := (saveConv st.convs
          (match findConv st.convs c with
           | none =>
               { id := c, participants := [s, r],
                 lastMessage := some st.nextId, unreadCount := [(r, 1)] }
           | some cv =>
               { cv with lastMessage := some st.nextId,
                         unreadCount := mapSet cv.unreadCount r
                           (getOr0 cv.unreadCount r + 1) })),
        nextId := st.nextId + 1 } := rfl

theorem sendMessageF_noFail_new (st : ChatState)
    (online : List (String × String)) (s sk r c : String)
    (content : Option String) (image : Option Image) (now : Nat)
    (hfc : findConv st.convs c = none) :
    (sendMessageF st online s sk r c content image now FailAt.noFail).1 =
      { messages := saveMsg st.messages (buildMsg st s r c content image now),
        convs := (saveConv st.convs
          { id := c, participants := [s, r], lastMessage := some st.nextId,
            unreadCount := [(r, 1)] }),
        nextId := st.nextId + 1 } := by
  rw [sendMessageF_noFail_state, hfc]

theorem sendMessageF_noFail_existing (st : ChatState)
    (online : List (String × String)) (s sk r c : String)
    (content : Option String) (image : Option Image) (now : Nat) (cv : Conv)
    (hfc : findConv st.convs c = some cv) :
    (sendMessageF st online s sk r c content image now FailAt.noFail).1 =
      { messages := saveMsg st.messages (buildMsg st s r c content image now),
        convs := (saveConv st.convs
          { cv with lastMessage := some st.nextId,
                    unreadCount := mapSet cv.unreadCount r
                      (getOr0 cv.unreadCount r + 1) }),
        nextId := st.nextId + 1 } := by
  rw [sendMessageF_noFail_state, hfc]

theorem markAsReadF_state (st : ChatState) (u c : String) (l : List Nat) :
    (markAsReadF st u c l).1 =
      (match findConv st.convs c with
       | none => { st with messages := st.messages.map (markOne l) }
       | some conv =>
           { st with messages := st.messages.map (markOne l),
                     convs := (saveConv st.convs
                       { conv with unreadCount := mapSet conv.unreadCount u 0 }) }) := rfl

theorem markAsReadF_none (st : ChatState) (u c : String) (l : List Nat)
    (hfc : findConv st.convs c = none) :
    (markAsReadF st u c l).1 =
      { st with messages := st.messages.map (markOne l) } := by
  rw [markAsReadF_state, hfc]

theorem markAsReadF_some (st : ChatState) (u c : String) (l : List Nat)
    (cv : Conv) (hfc : findConv st.convs c = some cv) :
    (markAsReadF st u c l).1 =
      { st with messages := st.messages.map (markOne l),
                convs := (saveConv st.convs
                  { cv with unreadCount := mapSet cv.unreadCount u 0 }) } := by
  rw [markAsReadF_state, hfc]

theorem applyOp_send (c : String) (st : ChatState) (s r : String)
    (content : Option String) (image : Option Image) (now : Nat) :
    applyOp c st (ChatOp.send s r content image now) =
      (sendMessageF st [] s "" r c content image now FailAt.noFail).1 := rfl

theorem applyOp_mark (c : String) (st : ChatState) (u : String)
    (l : List Nat) :
    applyOp c st (ChatOp.mark u l) = (markAsReadF st u c l).1 := rfl

theorem applyOps_cons (c : String) (st : ChatState) (op : ChatOp)
    (ops : List ChatOp) :
    applyOps c st (op :: ops) = applyOps c (applyOp c st op) ops := rfl

/-- The inductive invariant behind claim C1: every stored message belongs to
the conversation, ids are fresh and distinct, an absent conversation means no
messages yet, and every stored unread counter agrees with the count of
unread messages. -/
def C1Inv (c : String) (st : ChatState) : Prop :=
  (∀ m ∈ st.messages, m.conversationId = c) ∧
  (∀ m ∈ st.messages, m.id < st.nextId) ∧
  (st.messages.map Msg.id).Nodup ∧
  (findConv st.convs c = none → st.messages = []) ∧
  (∀ p, counterOf st c p = unreadMsgs st c p)

theorem getOr0_single_self (k : String) (v : Nat) : getOr0 [(k, v)] k = v := by
  unfold getOr0 mapGet
  rw [List.find?_cons]
  simp

theorem getOr0_single_other (k k' : String) (v : Nat) (h : k' ≠ k) :
    getOr0 [(k, v)] k' = 0 := by
  unfold getOr0 mapGet
  rw [List.find?_cons]
  have hb : (k == k') = false := by
    rw [beq_eq_false_iff_ne]
    exact fun hc => h hc.symm
  simp only [hb]
  rfl

theorem unreadPred_buildMsg_self (st : ChatState) (s r c : String)
    (content : Option String) (image : Option Image) (now : Nat) :
    unreadPred c r (buildMsg st s r c content image now) = true := by
  simp [unreadPred, buildMsg]

theorem unreadPred_buildMsg_other (st : ChatState) (s r c p : String)
    (content : Option String) (image : Option Image) (now : Nat)
    (h : r ≠ p) :
    unreadPred c p (buildMsg st s r c content image now) = false := by
  simp [unreadPred, buildMsg, h]

theorem counterOf_mk_saved (st : ChatState) (msgs : List Msg) (n : Nat)
    (c p : String) (cv : Conv) (hcv : cv.id = c) :
    counterOf { messages := msgs, convs := saveConv st.convs cv, nextId := n }
      c p = getOr0 cv.unreadCount p := by
  apply counterOf_eq_some
  exact findConv_saveConv_eq st.convs cv c hcv

theorem C1Inv_send (c : String) (st : ChatState) (s r : String)
    (content : Option String) (image : Option Image) (now : Nat)
    (h : C1Inv c st) :
    C1Inv c (applyOp c st (ChatOp.send s r content image now)) := by
  obtain ⟨hcid, hlt, hnodup, hnone, hcnt⟩ := h
  have hfresh : saveMsg st.messages (buildMsg st s r c content image now) =
      st.messages ++ [buildMsg st s r c content image now] := by
    apply saveMsg_fresh
    intro x hx
    exact Nat.ne_of_lt (hlt x hx)
  rw [applyOp_send]
  cases hfc : findConv st.convs c with
  | none =>
    rw [sendMessageF_noFail_new st [] s "" r c content image now hfc, hfresh]
    have hmsgs := hnone hfc
    refine ⟨?_, ?_, ?_, ?_, ?_⟩
    · intro m hm
      rw [List.mem_append] at hm
      rcases hm with hm | hm
      · exact hcid m hm
      · rw [List.mem_singleton] at hm
        subst hm
        rfl
    · intro m hm
      rw [List.mem_append] at hm
      rcases hm with hm | hm
      · exact Nat.lt_succ_of_lt (hlt m hm)
      · rw [List.mem_singleton] at hm
        subst hm
        exact Nat.lt_succ_self _
    · rw [List.map_append, List.nodup_append]
      refine ⟨hnodup, List.nodup_singleton _, ?_⟩
      intro a ha hb
      rw [List.mem_map] at ha
      obtain ⟨m, hm, rfl⟩ := ha
      simp only [List.map_cons, List.map_nil, List.mem_singleton] at hb
      have hlt2 := hlt m hm
      rw [hb] at hlt2
      exact Nat.lt_irrefl _ hlt2
    · intro hcontr
      rw [findConv_saveConv_eq st.convs _ c rfl] at hcontr
      exact Option.noConfusion hcontr
    · intro p
      rw [counterOf_mk_saved st _ _ c p _ rfl]
      show getOr0 [(r, 1)] p =
        unreadMsgs { messages := st.messages ++ [buildMsg st s r c content image now],
                     convs := (saveConv st.convs
                       { id := c, participants := [s, r],
                         lastMessage := some st.nextId, unreadCount := [(r, 1)] }),
                     nextId := st.nextId + 1 } c p
      unfold unreadMsgs
      rw [hmsgs]
      simp only [List.nil_append, List.countP_cons, List.countP_nil]
      by_cases hp : r = p
      · subst hp
        rw [unreadPred_buildMsg_self, getOr0_single_self]
        rfl
      · rw [unreadPred_buildMsg_other st s r c p content image now hp,
          getOr0_single_other r p 1 (fun hc => hp hc.symm)]
        rfl
  | some cv =>
    have hcvid : cv.id = c := findConv_eq_some_id st.convs c cv hfc
    rw [sendMessageF_noFail_existing st [] s "" r c content image now cv hfc,
      hfresh]
    refine ⟨?_, ?_, ?_, ?_, ?_⟩
    · intro m hm
      rw [List.mem_append] at hm
      rcases hm with hm | hm
      · exact hcid m hm
      · rw [List.mem_singleton] at hm
        subst hm
        rfl
    · intro m hm
      rw [List.mem_append] at hm
      rcases hm with hm | hm
      · exact Nat.lt_succ_of_lt (hlt m hm)
      · rw [List.mem_singleton] at hm
        subst hm
        exact Nat.lt_succ_self _
    · rw [List.map_append, List.nodup_append]
      refine ⟨hnodup, List.nodup_singleton _, ?_⟩
      intro a ha hb
      rw [List.mem_map] at ha
      obtain ⟨m, hm, rfl⟩ := ha
      simp only [List.map_cons, List.map_nil, List.mem_singleton] at hb
      have hlt2 := hlt m hm
      rw [hb] at hlt2
      exact Nat.lt_irrefl _ hlt2
    · intro hcontr
      have hcontr2 : findConv (saveConv st.convs
          { cv with lastMessage := some st.nextId,
                    unreadCount := mapSet cv.unreadCount r
                      (getOr0 cv.unreadCount r + 1) }) c = none := hcontr
      rw [findConv_saveConv_eq st.convs
        { cv with lastMessage := some st.nextId,
                  unreadCount := mapSet cv.unreadCount r
                    (getOr0 cv.unreadCount r + 1) } c hcvid] at hcontr2
      exact Option.noConfusion hcontr2
    · intro p
      rw [counterOf_mk_saved st
        (st.messages ++ [buildMsg st s r c content image now]) (st.nextId + 1)
        c p
        { cv with lastMessage := some st.nextId,
                  unreadCount := mapSet cv.unreadCount r
                    (getOr0 cv.unreadCount r + 1) } hcvid]
      show getOr0 (mapSet cv.unreadCount r (getOr0 cv.unreadCount r + 1)) p =
        unreadMsgs { messages := st.messages ++ [buildMsg st s r c content image now],
                     convs := (saveConv st.convs
                       { cv with lastMessage := some st.nextId,
                                 unreadCount := mapSet cv.unreadCount r
                                   (getOr0 cv.unreadCount r + 1) }),
                     nextId := st.nextId + 1 } c p
      have hold : getOr0 cv.unreadCount p = unreadMsgs st c p := by
        rw [← counterOf_eq_some st c p cv hfc]
        exact hcnt p
      unfold unreadMsgs
      rw [List.countP_append]
      simp only [List.countP_cons, List.countP_nil]
      by_cases hp : r = p
      · subst hp
        rw [unreadPred_buildMsg_self, getOr0_mapSet_self]
        have hold2 : getOr0 cv.unreadCount r = unreadMsgs st c r := hold
        unfold unreadMsgs at hold2
        rw [hold2]
        rfl
      · rw [unreadPred_buildMsg_other st s r c p content image now hp,
          getOr0_mapSet_other cv.unreadCount r p _ (fun hc => hp hc.symm)]
        have hold2 : getOr0 cv.unreadCount p = unreadMsgs st c p := hold
        unfold unreadMsgs at hold2
        rw [hold2]
        rfl

theorem unreadMsgs_mk (msgs : List Msg) (convs : List Conv) (n : Nat)
    (c p : String) :
    unreadMsgs { messages := msgs, convs := convs, nextId := n } c p =
      msgs.countP (unreadPred c p) := rfl

theorem mem_unreadIds_of_pred (st : ChatState) (c u : String) (m : Msg)
    (hm : m ∈ st.messages) (hp : unreadPred c u m = true) :
    m.id ∈ unreadIds st c u := by
  unfold unreadIds
  exact List.mem_map_of_mem Msg.id (List.mem_filter.mpr ⟨hm, hp⟩)

theorem pred_of_mem_unreadIds (st : ChatState) (c u : String) (m : Msg)
    (hm : m ∈ st.messages) (hnodup : (st.messages.map Msg.id).Nodup)
    (hid : m.id ∈ unreadIds st c u) :
    unreadPred c u m = true := by
  unfold unreadIds at hid
  rw [List.mem_map] at hid
  obtain ⟨m2, hm2, hideq⟩ := hid
  rw [List.mem_filter] at hm2
  have heq : m2 = m := List.inj_on_of_nodup_map hnodup hm2.1 hm hideq
  rw [← heq]
  exact hm2.2

theorem markOne_of_contains (l : List Nat) (m : Msg)
    (h : l.contains m.id = true) : markOne l m = { m with read := true } := by
  unfold markOne
  rw [if_pos h]

theorem markOne_of_not_contains (l : List Nat) (m : Msg)
    (h : l.contains m.id = false) : markOne l m = m := by
  unfold markOne
  rw [if_neg (by rw [h]; exact Bool.false_ne_true)]

theorem unreadPred_recipient (c u : String) (m : Msg)
    (h : unreadPred c u m = true) : m.recipient = some u := by
  unfold unreadPred at h
  rw [Bool.and_eq_true, Bool.and_eq_true] at h
  exact eq_of_beq h.1.2

theorem C1Inv_mark (c : String) (st : ChatState) (u : String) (l : List Nat)
    (hL : l = unreadIds st c u) (h : C1Inv c st) :
    C1Inv c (applyOp c st (ChatOp.mark u l)) := by
  obtain ⟨hcid, hlt, hnodup, hnone, hcnt⟩ := h
  rw [applyOp_mark]
  have hmapId : (st.messages.map (markOne l)).map Msg.id =
      st.messages.map Msg.id := by
    rw [List.map_map]
    exact List.map_congr_left (fun a _ => markOne_id l a)
  have hA : ∀ m ∈ st.messages, unreadPred c u m = true →
      l.contains m.id = true := by
    intro m hm hp
    rw [contains_iff_mem, hL]
    exact mem_unreadIds_of_pred st c u m hm hp
  have hB : ∀ m ∈ st.messages, l.contains m.id = true →
      unreadPred c u m = true := by
    intro m hm hcon
    rw [contains_iff_mem, hL] at hcon
    exact pred_of_mem_unreadIds st c u m hm hnodup hcon
  have hmsg1 : ∀ m2 ∈ st.messages.map (markOne l), m2.conversationId = c := by
    intro m2 hm2
    rw [List.mem_map] at hm2
    obtain ⟨m, hm, rfl⟩ := hm2
    rw [markOne_conversationId]
    exact hcid m hm
  have hmsg2 : ∀ m2 ∈ st.messages.map (markOne l), m2.id < st.nextId := by
    intro m2 hm2
    rw [List.mem_map] at hm2
    obtain ⟨m, hm, rfl⟩ := hm2
    rw [markOne_id]
    exact hlt m hm
  have hcu : (st.messages.map (markOne l)).countP (unreadPred c u) = 0 := by
    rw [List.countP_map, List.countP_eq_zero]
    intro m hm hcontra
    have hcontra2 : unreadPred c u (markOne l m) = true := hcontra
    by_cases hcon : l.contains m.id = true
    · rw [markOne_of_contains l m hcon] at hcontra2
      unfold unreadPred at hcontra2
      simp at hcontra2
    · rw [Bool.not_eq_true] at hcon
      rw [markOne_of_not_contains l m hcon] at hcontra2
      have hmem := hA m hm hcontra2
      rw [hcon] at hmem
      exact Bool.false_ne_true hmem
  have hcp : ∀ p, p ≠ u →
      (st.messages.map (markOne l)).countP (unreadPred c p) =
        st.messages.countP (unreadPred c p) := by
    intro p hp
    rw [List.countP_map]
    apply countP_congr_mem
    intro m hm
    show unreadPred c p (markOne l m) = unreadPred c p m
    by_cases hcon : l.contains m.id = true
    · have hrec := unreadPred_recipient c u m (hB m hm hcon)
      have hb : (u == p) = false := by
        rw [beq_eq_false_iff_ne]
        exact fun hc => hp hc.symm
      have h1 : unreadPred c p (markOne l m) = false := by
        rw [markOne_of_contains l m hcon]
        simp [unreadPred]
      have h2 : unreadPred c p m = false := by
        unfold unreadPred
        rw [hrec]
        simp [hb]
      rw [h1, h2]
    · rw [Bool.not_eq_true] at hcon
      rw [markOne_of_not_contains l m hcon]
  cases hfc : findConv st.convs c with
  | none =>
    rw [markAsReadF_none st u c l hfc]
    have hmsgs := hnone hfc
    refine ⟨hmsg1, hmsg2, ?_, ?_, ?_⟩
    · show ((st.messages.map (markOne l)).map Msg.id).Nodup
      rw [hmapId]
      exact hnodup
    · intro hcontr
      have hmsgs2 : st.messages = [] := hnone hcontr
      show st.messages.map (markOne l) = []
      rw [hmsgs2]
      rfl
    · intro p
      have h0 : counterOf { st with messages := st.messages.map (markOne l) }
          c p = 0 := counterOf_eq_none _ c p hfc
      have h1 : unreadMsgs { st with messages := st.messages.map (markOne l) }
          c p = 0 := by
        rw [unreadMsgs_mk]
        rw [hmsgs]
        rfl
      rw [h0, h1]
  | some cv =>
    have hcvid := findConv_eq_some_id st.convs c cv hfc
    rw [markAsReadF_some st u c l cv hfc]
    refine ⟨hmsg1, hmsg2, ?_, ?_, ?_⟩
    · show ((st.messages.map (markOne l)).map Msg.id).Nodup
      rw [hmapId]
      exact hnodup
    · intro hcontr
      have hcontr2 : findConv (saveConv st.convs
          { cv with unreadCount := mapSet cv.unreadCount u 0 }) c =
          none := hcontr
      rw [findConv_saveConv_eq st.convs
        { cv with unreadCount := mapSet cv.unreadCount u 0 } c hcvid] at hcontr2
      exact Option.noConfusion hcontr2
    · intro p
      rw [counterOf_mk_saved st (st.messages.map (markOne l)) st.nextId c p
        { cv with unreadCount := mapSet cv.unreadCount u 0 } hcvid]
      rw [unreadMsgs_mk]
      by_cases hp : p = u
      · subst hp
        rw [getOr0_mapSet_self]
        rw [hcu]
      · rw [getOr0_mapSet_other cv.unreadCount u p 0 hp]
        rw [hcp p hp]
        have h2 : getOr0 cv.unreadCount p = unreadMsgs st c p := by
          rw [← counterOf_eq_some st c p cv hfc]
          exact hcnt p
        unfold unreadMsgs at h2
        exact h2

theorem C1Inv_init (c : String) : C1Inv c initState := by
  refine ⟨?_, ?_, ?_, ?_, ?_⟩
  · intro m hm
    exact absurd hm (List.not_mem_nil m)
  · intro m hm
    exact absurd hm (List.not_mem_nil m)
  · exact List.nodup_nil
  · intro _
    rfl
  · intro p
    rfl

theorem C1Inv_applyOps (c : String) (ops : List ChatOp) :
    ∀ st : ChatState, goodTrace c st ops = true → C1Inv c st →
      C1Inv c (applyOps c st ops) := by
  induction ops with
  | nil =>
    intro st _ h
    exact h
  | cons op rest ih =>
    intro st hg h
    rw [applyOps_cons]
    cases op with
    | send s r content image now =>
      have hg2 : goodTrace c (applyOp c st (ChatOp.send s r content image now))
          rest = true := by
        unfold goodTrace at hg
        rw [Bool.and_eq_true] at hg
        exact hg.2
      exact ih _ hg2 (C1Inv_send c st s r content image now h)
    | mark u l =>
      unfold goodTrace at hg
      rw [Bool.and_eq_true] at hg
      have hL : l = unreadIds st c u := eq_of_beq hg.1
      exact ih _ hg.2 (C1Inv_mark c st u l hL h)

/-- Claim C1 (amended): starting from an empty store, after any sequence of
sendMessage and markAsRead operations on conversation `c` in which every
markAsRead call passes exactly the ids of the caller's currently-unread
messages of `c`, the stored unread counter of every participant equals the
number of persisted messages of `c` addressed to that participant with
`read=false`.  (The unrestricted claim is refuted by
`C1_unread_counter_cex`.) -/
theorem C1_unread_counter_invariant (c : String) (ops : List ChatOp)
    (p : String) (hg : goodTrace c initState ops = true) :
    counterOf (applyOps c initState ops) c p =
      unreadMsgs (applyOps c initState ops) c p :=
  (C1Inv_applyOps c ops initState hg (C1Inv_init c)).2.2.2.2 p

/-- Witness for C1: the two-operation trace "A sends to B, B acknowledges
the message" satisfies the side condition, and the counter then matches the
unread count. -/
theorem C1_unread_counter_invariant_witness :
    goodTrace "c" initState
      [ChatOp.send "A" "B" (some "hi") none 0, ChatOp.mark "B" [0]] = true ∧
    counterOf (applyOps "c" initState
      [ChatOp.send "A" "B" (some "hi") none 0, ChatOp.mark "B" [0]]) "c" "B" =
    unreadMsgs (applyOps "c" initState
      [ChatOp.send "A" "B" (some "hi") none 0, ChatOp.mark "B" [0]]) "c" "B" :=
  ⟨by decide, C1_unread_counter_invariant "c"
    [ChatOp.send "A" "B" (some "hi") none 0, ChatOp.mark "B" [0]] "B"
    (by decide)⟩

/-- Counterexample to C1 as stated: A sends one message to B, then B issues
a markAsRead carrying an empty id list.  The handler still zeroes B's unread
counter, while one message addressed to B remains unread, so the stored
counter (0) differs from the unread-message count (1). -/
theorem C1_unread_counter_cex :
    counterOf (applyOps "c" initState
      [ChatOp.send "A" "B" (some "hi") none 0, ChatOp.mark "B" []]) "c" "B" = 0 ∧
    unreadMsgs (applyOps "c" initState
      [ChatOp.send "A" "B" (some "hi") none 0, ChatOp.mark "B" []]) "c" "B" = 1 := by
  decide

/-- Claim C2 (amended): a persistence failure in sendMessage aborts the
remaining steps and reports the error only to the sending socket, and no
conversation-state mutation (unread counters, lastMessage) becomes visible;
but when the failure hits the conversation save, the message saved by the
preceding step remains in the message store (see `C2_partial_mutation_cex`).
-/
theorem C2_send_failure_atomicity (st : ChatState)
    (online : List (String × String)) (s sk r c : String)
    (content : Option String) (image : Option Image) (now : Nat)
    (failAt : FailAt) (hne : failAt ≠ FailAt.noFail) :
    (sendMessageF st online s sk r c content image now failAt).2 =
      [Event.messageError sk] ∧
    (sendMessageF st online s sk r c content image now failAt).1.convs =
      st.convs ∧
    (failAt = FailAt.msgSave →
      (sendMessageF st online s sk r c content image now failAt).1 = st) ∧
    (failAt = FailAt.convSave →
      (sendMessageF st online s sk r c content image now failAt).1.messages =
        saveMsg st.messages (buildMsg st s r c content image now)) := by
  cases failAt with
  | noFail => exact absurd rfl hne
  | msgSave =>
    exact ⟨rfl, rfl, fun _ => rfl, fun hc => absurd hc (by decide)⟩
  | convSave =>
    exact ⟨rfl, rfl, fun hc => absurd hc (by decide), fun _ => rfl⟩

/-- Witness for C2: a concrete run failing at the conversation save. -/
theorem C2_send_failure_atomicity_witness :
    FailAt.convSave ≠ FailAt.noFail ∧
    ((sendMessageF initState [] "A" "sA" "B" "c" (some "hi") none 0
        FailAt.convSave).2 = [Event.messageError "sA"] ∧
    (sendMessageF initState [] "A" "sA" "B" "c" (some "hi") none 0
        FailAt.convSave).1.convs = initState.convs ∧
    (FailAt.convSave = FailAt.msgSave →
      (sendMessageF initState [] "A" "sA" "B" "c" (some "hi") none 0
        FailAt.convSave).1 = initState) ∧
    (FailAt.convSave = FailAt.convSave →
      (sendMessageF initState [] "A" "sA" "B" "c" (some "hi") none 0
        FailAt.convSave).1.messages =
        saveMsg initState.messages
          (buildMsg initState "A" "B" "c" (some "hi") none 0))) :=
  ⟨by decide, C2_send_failure_atomicity initState [] "A" "sA" "B" "c"
    (some "hi") none 0 FailAt.convSave (by decide)⟩

/-- Counterexample to C2 as stated: the conversation save fails, a SendError
goes to the sender only, yet the message store visibly changed — the new
message was persisted before the failing call, contradicting "no partial
mutation of the message store is visible". -/
theorem C2_partial_mutation_cex :
    (sendMessageF initState [] "A" "sA" "B" "c" (some "hi") none 0
        FailAt.convSave).2 = [Event.messageError "sA"] ∧
    (sendMessageF initState [] "A" "sA" "B" "c" (some "hi") none 0
        FailAt.convSave).1.messages ≠ initState.messages := by
  decide

/-- Claim C3 (amended): the REST addMessage operation implements the stated
validation — it fails with a ValidationError and persists nothing exactly
when the content is missing or trims to empty and no image is given, and
this validation never fails the operation otherwise.  The socket sendMessage
handler performs no such validation (see `C3_socket_no_validation_cex`). -/
theorem C3_addMessage_validation (st : ChatState) (u c : String)
    (content : Option String) (image : Option Image) (now : Nat) :
    ((contentBlank content = true ∧ image = none) →
      addMessageR st u c content image now =
        (Except.error RestErr.validation, st)) ∧
    ((contentBlank content = false ∨ image ≠ none) →
      (addMessageR st u c content image now).1 ≠
        Except.error RestErr.validation) := by
  constructor
  · rintro ⟨hb, hi⟩
    subst hi
    unfold addMessageR
    rw [hb]
    rfl
  · intro hor
    unfold addMessageR
    have hcond : (contentBlank content && image.isNone) = false := by
      rcases hor with hb | hi
      · rw [hb]
        rfl
      · have hnone : image.isNone = false := by
          cases image with
          | none => exact absurd rfl hi
          | some v => rfl
        rw [hnone, Bool.and_false]
    rw [if_neg (by rw [hcond]; exact Bool.false_ne_true)]
    split
    · simp
    · split
      · simp
      · simp

/-- Witness for C3: a blank request is rejected with nothing persisted, and
a request with text passes the validation. -/
theorem C3_addMessage_validation_witness :
    ((contentBlank none = true ∧ (none : Option Image) = none) ∧
      addMessageR initState "A" "c" none none 0 =
        (Except.error RestErr.validation, initState)) ∧
    ((contentBlank (some "hi") = false ∨ (none : Option Image) ≠ none) ∧
      (addMessageR initState "A" "c" (some "hi") none 0).1 ≠
        Except.error RestErr.validation) :=
  ⟨⟨⟨rfl, rfl⟩, (C3_addMessage_validation initState "A" "c" none none 0).1
      ⟨rfl, rfl⟩⟩,
   ⟨Or.inl (by decide),
    (C3_addMessage_validation initState "A" "c" (some "hi") none 0).2
      (Or.inl (by decide))⟩⟩

/-- Counterexample to C3 as stated: a socket sendMessage with neither
content nor image does not fail with a ValidationError — it persists a
message (with no content field) and broadcasts it. -/
theorem C3_socket_no_validation_cex :
    (sendMessageF initState [] "A" "sA" "B" "c" none none 0
        FailAt.noFail).1.messages.length = 1 ∧
    (sendMessageF initState [] "A" "sA" "B" "c" none none 0
        FailAt.noFail).2 = [Event.newMessage "c" 0] := by
  decide

/-- Claim C4 (amended): when the conversation id does not resolve, the
defensive path creates a conversation whose participants are sender and
recipient but whose unread-count mapping holds a single entry mapping the
recipient to one — the sender has no entry at all (reads default to 0 via
the `|| 0` idiom). -/
theorem C4_defensive_creation (st : ChatState)
    (online : List (String × String)) (s sk r c : String)
    (content : Option String) (image : Option Image) (now : Nat)
    (hfc : findConv st.convs c = none) (hsr : s ≠ r) :
    ∃ cv : Conv,
      findConv (sendMessageF st online s sk r c content image now
        FailAt.noFail).1.convs c = some cv ∧
      cv.participants = [s, r] ∧
      cv.unreadCount = [(r, 1)] ∧
      mapGet cv.unreadCount r = some 1 ∧
      mapGet cv.unreadCount s = none := by
  refine ⟨{ id := c, participants := [s, r], lastMessage := some st.nextId,
            unreadCount := [(r, 1)] }, ?_, rfl, rfl, ?_, ?_⟩
  · rw [sendMessageF_noFail_new st online s sk r c content image now hfc]
    exact findConv_saveConv_eq st.convs _ c rfl
  · unfold mapGet
    rw [List.find?_cons]
    simp
  · unfold mapGet
    rw [List.find?_cons]
    have hb : (r == s) = false := by
      rw [beq_eq_false_iff_ne]
      exact fun hc => hsr hc.symm
    simp only [hb]
    rfl

/-- Witness for C4: the defensive path on the empty store. -/
theorem C4_defensive_creation_witness :
    findConv initState.convs "c" = none ∧ "A" ≠ "B" ∧
    (∃ cv : Conv,
      findConv (sendMessageF initState [] "A" "sA" "B" "c" (some "hi") none 0
        FailAt.noFail).1.convs "c" = some cv ∧
      cv.participants = ["A", "B"] ∧
      cv.unreadCount = [("B", 1)] ∧
      mapGet cv.unreadCount "B" = some 1 ∧
      mapGet cv.unreadCount "A" = none) :=
  ⟨rfl, by decide, C4_defensive_creation initState [] "A" "sA" "B" "c"
    (some "hi") none 0 rfl (by decide)⟩

/-- Counterexample to C4 as stated: after the defensive creation the sender
"A" has no entry in the unread-count mapping, instead of the claimed entry
of zero. -/
theorem C4_sender_entry_cex :
    (findConv (sendMessageF initState [] "A" "sA" "B" "c" (some "hi") none 0
        FailAt.noFail).1.convs "c").map
      (fun cv => mapGet cv.unreadCount "A") = some none := by
  decide

/-- Claim C5 (amended): every disconnect of a connection bound to user `u`
unconditionally deletes `u` from the presence registry and broadcasts a
presence-offline event, regardless of any other live connection of `u`; the
registry stores at most one socket per user, a later connect overwriting the
earlier one. -/
theorem C5_disconnect_always_offline (ps : PresenceState) (u s : String) :
    (disconnectUser ps u).2 = [Event.userStatus u "offline"] ∧
    mapGet (disconnectUser ps u).1.onlineUsers u = none ∧
    mapGet (connectUser ps u s).1.onlineUsers u = some s := by
  refine ⟨rfl, ?_, ?_⟩
  · exact mapGet_mapDelete_self ps.onlineUsers u
  · exact mapGet_mapSet_self ps.onlineUsers u s

/-- Counterexample to C5 as stated: user "u" opens connections "s1" and
"s2"; the disconnect handler for "s1" still deletes "u" from the registry
and broadcasts offline even though "s2" is live, because the registry keys
a single socket id per user and the handler checks nothing. -/
theorem C5_second_connection_cex :
    (disconnectUser (connectUser (connectUser { onlineUsers := [] }
        "u" "s1").1 "u" "s2").1 "u").2 = [Event.userStatus "u" "offline"] ∧
    mapGet (disconnectUser (connectUser (connectUser { onlineUsers := [] }
        "u" "s1").1 "u" "s2").1 "u").1.onlineUsers "u" = none := by
  decide


theorem findMsg_eq_some_id (msgs : List Msg) (mid : Nat) (m : Msg)
    (h : findMsg msgs mid = some m) : m.id = mid := by
  unfold findMsg at h
  have hb := List.find?_some h
  exact eq_of_beq hb

theorem findMsg_saveMsg_eq (msgs : List Msg) (m : Msg) (mid : Nat)
    (h : m.id = mid) : findMsg (saveMsg msgs m) mid = some m := by
  subst h
  exact findMsg_saveMsg_self msgs m

/-- A one-message store, used by concrete witnesses and counterexamples. -/
def oneMsgStore (m : Msg) : ChatState :=
  { messages := [m], convs := [], nextId := 1 }

/-- A stored message carrying both an image and a file attachment. -/
def attachMsg : Msg :=
  { id := 0, sender := "A", recipient := some "B", conversationId := "c",
    content := some "hello",
    image := some { public_id := "p", url := "u", secure_url := "s" },
    file := some "doc.pdf", read := false, edited := false, editedAt := none,
    deleted := false, reactions := [], createdAt := 0 }

theorem addReactionF_found (st : ChatState) (u sk : String) (mid : Nat)
    (e : String) (t : Nat) (m : Msg)
    (hfind : findMsg st.messages mid = some m) :
    (addReactionF st u sk mid e t).1 =
      { st with messages := (saveMsg st.messages
        { m with reactions := toggleReaction m.reactions u e t }) } := by
  unfold addReactionF
  simp only [hfind]

/-- Claim C6 (confirmed): performing the reaction toggle twice with the same
user and emoji on an existing message restores the message's reaction set —
membership of every `(user, emoji)` pair is as before, whatever the initial
reaction sequence was. -/
theorem C6_reaction_toggle_roundtrip (st : ChatState) (u sk : String)
    (mid : Nat) (e : String) (t1 t2 : Nat) (m : Msg)
    (hfind : findMsg st.messages mid = some m) :
    ∃ m2 : Msg,
      findMsg (addReactionF (addReactionF st u sk mid e t1).1 u sk mid e
        t2).1.messages mid = some m2 ∧
      ∀ u' e' : String,
        hasReaction m2.reactions u' e' = hasReaction m.reactions u' e' := by
  have hid : m.id = mid := findMsg_eq_some_id st.messages mid m hfind
  have h1 := addReactionF_found st u sk mid e t1 m hfind
  have hfind2 : findMsg (saveMsg st.messages
      { m with reactions := toggleReaction m.reactions u e t1 }) mid =
      some { m with reactions := toggleReaction m.reactions u e t1 } :=
    findMsg_saveMsg_eq st.messages _ mid hid
  have h2 := addReactionF_found
    { st with messages := (saveMsg st.messages
      { m with reactions := toggleReaction m.reactions u e t1 }) } u sk mid e
    t2 { m with reactions := toggleReaction m.reactions u e t1 } hfind2
  rw [h1, h2]
  refine ⟨{ m with reactions := (toggleReaction
    (toggleReaction m.reactions u e t1) u e t2) }, ?_, ?_⟩
  · exact findMsg_saveMsg_eq _ _ mid hid
  · intro u' e'
    exact toggleReaction_toggleReaction m.reactions u e t1 t2 u' e'

/-- Witness for C6: double-toggling a thumbs-up on a stored message leaves
its reaction set unchanged. -/
theorem C6_reaction_toggle_roundtrip_witness :
    findMsg (oneMsgStore (mkMsg 0 "A" (some "B") "c")).messages 0 =
      some (mkMsg 0 "A" (some "B") "c") ∧
    (∃ m2 : Msg,
      findMsg (addReactionF (addReactionF
        (oneMsgStore (mkMsg 0 "A" (some "B") "c")) "B" "sB" 0 "like"
          5).1 "B" "sB" 0 "like" 9).1.messages 0 = some m2 ∧
      ∀ u' e' : String,
        hasReaction m2.reactions u' e' =
          hasReaction (mkMsg 0 "A" (some "B") "c").reactions u' e') :=
  ⟨rfl, C6_reaction_toggle_roundtrip (oneMsgStore (mkMsg 0 "A" (some "B") "c"))
    "B" "sB" 0 "like" 5 9 (mkMsg 0 "A" (some "B") "c") rfl⟩

theorem editMessageRest_found (st : ChatState) (u : String) (mid : Nat)
    (content : Option String) (now : Nat) (m : Msg)
    (hb : contentBlank content = false)
    (hf : findMsg st.messages mid = some m) :
    editMessageRest st u mid content now =
      (if (!(m.sender == u)) = true then (Except.error RestErr.forbidden, st)
       else (Except.ok
         { m with
           content := some (jsTrim (content.getD "")),
           edited := true, editedAt := some now },
         { st with messages := (saveMsg st.messages
           { m with
             content := some (jsTrim (content.getD "")),
             edited := true, editedAt := some now }) })) := by
  unfold editMessageRest
  rw [if_neg (by rw [hb]; exact Bool.false_ne_true)]
  simp only [hf]

/-- Claim C7 (amended): the REST edit fails with a ValidationError when the
new content is missing or trims to empty, a NotFoundError when the message
id does not resolve, and a PermissionError when the caller is not the
sender; every failure leaves the store untouched.  The socket edit handler
checks only existence and ownership — it accepts empty content without a
ValidationError (see `C7_socket_edit_empty_content_cex`). -/
theorem C7_edit_failure_modes (st : ChatState) (u : String) (mid : Nat)
    (content : Option String) (now : Nat) :
    (contentBlank content = true →
      editMessageRest st u mid content now =
        (Except.error RestErr.validation, st)) ∧
    (contentBlank content = false → findMsg st.messages mid = none →
      editMessageRest st u mid content now =
        (Except.error RestErr.notFound, st)) ∧
    (∀ m : Msg, contentBlank content = false →
      findMsg st.messages mid = some m → (m.sender == u) = false →
      editMessageRest st u mid content now =
        (Except.error RestErr.forbidden, st)) := by
  refine ⟨?_, ?_, ?_⟩
  · intro hb
    unfold editMessageRest
    rw [if_pos hb]
  · intro hb hf
    unfold editMessageRest
    rw [if_neg (by rw [hb]; exact Bool.false_ne_true)]
    simp only [hf]
  · intro m hb hf hs
    rw [editMessageRest_found st u mid content now m hb hf]
    rw [if_pos (by rw [hs]; rfl)]

/-- Witness for C7: one concrete input per failure mode — blank content,
unknown id, and a non-sender caller. -/
theorem C7_edit_failure_modes_witness :
    (contentBlank (some " ") = true ∧
      editMessageRest initState "A" 0 (some " ") 0 =
        (Except.error RestErr.validation, initState)) ∧
    (contentBlank (some "x") = false ∧ findMsg initState.messages 5 = none ∧
      editMessageRest initState "A" 5 (some "x") 0 =
        (Except.error RestErr.notFound, initState)) ∧
    (((mkMsg 0 "A" (some "B") "c").sender == "B") = false ∧
      editMessageRest (oneMsgStore (mkMsg 0 "A" (some "B") "c")) "B" 0
        (some "x") 0 =
        (Except.error RestErr.forbidden,
          oneMsgStore (mkMsg 0 "A" (some "B") "c"))) :=
  ⟨⟨by decide, (C7_edit_failure_modes initState "A" 0 (some " ") 0).1
      (by decide)⟩,
   ⟨by decide, rfl, (C7_edit_failure_modes initState "A" 5 (some "x") 0).2.1
      (by decide) rfl⟩,
   ⟨by decide, (C7_edit_failure_modes
      (oneMsgStore (mkMsg 0 "A" (some "B") "c"))
      "B" 0 (some "x") 0).2.2 (mkMsg 0 "A" (some "B") "c") (by decide) rfl
      (by decide)⟩⟩

/-- Counterexample to C7 as stated: the socket edit handler lets the sender
set empty content — it emits `messageEdited` (no ValidationError) and the
record is changed. -/
theorem C7_socket_edit_empty_content_cex :
    (editMessageSock (oneMsgStore (mkMsg 0 "A" (some "B") "c")) "A" "sA" 0
      (some "") 7).2 = [Event.messageEdited "c" 0] ∧
    (findMsg (editMessageSock (oneMsgStore (mkMsg 0 "A" (some "B") "c")) "A"
      "sA" 0 (some "") 7).1.messages 0).map Msg.content = some (some "") ∧
    (findMsg (editMessageSock (oneMsgStore (mkMsg 0 "A" (some "B") "c")) "A"
      "sA" 0 (some "") 7).1.messages 0).map Msg.edited = some true := by
  decide

theorem deleteMessageSock_owner (st : ChatState) (u sk : String) (mid : Nat)
    (m : Msg) (hf : findMsg st.messages mid = some m)
    (hs : (m.sender == u) = true) :
    deleteMessageSock st u sk mid =
      ({ st with messages := (saveMsg st.messages
          { m with deleted := true,
                   content := some "This message has been deleted",
                   image := none, file := none }) },
       [Event.messageDeleted m.conversationId mid u]) := by
  unfold deleteMessageSock
  simp only [hf]
  rw [if_neg (by rw [hs]; exact fun hx => Bool.false_ne_true hx)]

theorem deleteMessageRest_owner (st : ChatState) (u : String) (mid : Nat)
    (m : Msg) (hf : findMsg st.messages mid = some m)
    (hs : (m.sender == u) = true) :
    deleteMessageRest st u mid =
      (Except.ok (),
       { st with messages := (saveMsg st.messages
          { m with deleted := true,
                   content := some "This message has been deleted",
                   image := none }) }) := by
  unfold deleteMessageRest
  simp only [hf]
  rw [if_neg (by rw [hs]; exact fun hx => Bool.false_ne_true hx)]

/-- Claim C8 (amended): a successful delete by the sender sets
`deleted=true`, tombstones the content, and preserves the message id,
sender, recipient and conversation linkage; the socket handler clears both
the image and file fields, while the REST handler clears only the image —
the file field survives a REST delete (see `C8_rest_delete_keeps_file_cex`).
-/
theorem C8_delete_tombstone (st : ChatState) (u sk : String) (mid : Nat)
    (m : Msg) (hf : findMsg st.messages mid = some m)
    (hs : (m.sender == u) = true) :
    findMsg (deleteMessageSock st u sk mid).1.messages mid =
      some { m with deleted := true,
                    content := some "This message has been deleted",
                    image := none, file := none } ∧
    findMsg (deleteMessageRest st u mid).2.messages mid =
      some { m with deleted := true,
                    content := some "This message has been deleted",
                    image := none } := by
  have hid : m.id = mid := findMsg_eq_some_id st.messages mid m hf
  constructor
  · rw [deleteMessageSock_owner st u sk mid m hf hs]
    exact findMsg_saveMsg_eq _ _ mid hid
  · rw [deleteMessageRest_owner st u mid m hf hs]
    exact findMsg_saveMsg_eq _ _ mid hid

/-- Witness for C8: deleting a stored message that carries both an image and
a file attachment, via both the socket and the REST path. -/
theorem C8_delete_tombstone_witness :
    findMsg (oneMsgStore attachMsg).messages 0 = some attachMsg ∧
    (attachMsg.sender == "A") = true ∧
    findMsg (deleteMessageSock (oneMsgStore attachMsg) "A" "sA"
      0).1.messages 0 =
      some { attachMsg with
             deleted := true,
             content := some "This message has been deleted",
             image := none, file := none } ∧
    findMsg (deleteMessageRest (oneMsgStore attachMsg) "A" 0).2.messages 0 =
      some { attachMsg with
             deleted := true,
             content := some "This message has been deleted",
             image := none } :=
  ⟨rfl, by decide,
    C8_delete_tombstone (oneMsgStore attachMsg) "A" "sA" 0 attachMsg rfl
      (by decide)⟩

/-- Counterexample to C8 as stated: a successful REST delete of a message
carrying a file attachment leaves the file field set — the attachment is
not cleared. -/
theorem C8_rest_delete_keeps_file_cex :
    (deleteMessageRest (oneMsgStore attachMsg) "A" 0).1 = Except.ok () ∧
    (findMsg (deleteMessageRest (oneMsgStore attachMsg) "A" 0).2.messages
      0).map Msg.file = some (some "doc.pdf") :=
  ⟨rfl, rfl⟩

theorem getMessagesR_found_ok (st : ChatState) (u c : String) (pa la : Nat)
    (cv : Conv) (hfc : findConv st.convs c = some cv)
    (hpart : cv.participants.contains u = true) :
    ∃ page : List Msg, (getMessagesR st u c pa la).1 = Except.ok page := by
  unfold getMessagesR
  simp only [hfc]
  rw [if_neg (by rw [hpart]; exact fun hx => Bool.false_ne_true hx)]
  exact ⟨_, rfl⟩

theorem getMessagesR_found_state (st : ChatState) (u c : String)
    (pa la : Nat) (cv : Conv) (hfc : findConv st.convs c = some cv)
    (hpart : cv.participants.contains u = true) :
    (getMessagesR st u c pa la).2 =
      { st with
        messages := (st.messages.map (fun m =>
          if m.conversationId == c && m.recipient == some u
              && m.read == false
          then { m with read := true } else m)),
        convs := (saveConv st.convs
          { cv with unreadCount := mapSet cv.unreadCount u 0 }) } := by
  unfold getMessagesR
  simp only [hfc]
  rw [if_neg (by rw [hpart]; exact fun hx => Bool.false_ne_true hx)]

/-- Claim C9 (confirmed): a successful getMessages request by `u` on
conversation `c` returns a page of messages, and in the resulting store
every message of `c` addressed to `u` is read (the marking covers the whole
conversation, not only the returned page) and `u`'s unread counter for `c`
is zero. -/
theorem C9_getMessages_marks_all_unread (st : ChatState) (u c : String)
    (pa la : Nat) (cv : Conv) (hfc : findConv st.convs c = some cv)
    (hpart : cv.participants.contains u = true) :
    (∃ page : List Msg, (getMessagesR st u c pa la).1 = Except.ok page) ∧
    (∀ m2 ∈ (getMessagesR st u c pa la).2.messages,
      m2.conversationId = c → m2.recipient = some u → m2.read = true) ∧
    counterOf (getMessagesR st u c pa la).2 c u = 0 := by
  have hcvid := findConv_eq_some_id st.convs c cv hfc
  refine ⟨getMessagesR_found_ok st u c pa la cv hfc hpart, ?_, ?_⟩
  all_goals rw [getMessagesR_found_state st u c pa la cv hfc hpart]
  · intro m2 hm2 hc2 hr2
    have hm2b : m2 ∈ st.messages.map (fun m =>
        if m.conversationId == c && m.recipient == some u && m.read == false
        then { m with read := true } else m) := hm2
    rw [List.mem_map] at hm2b
    obtain ⟨m, hm, hmeq⟩ := hm2b
    by_cases hcond : (m.conversationId == c && m.recipient == some u
        && m.read == false) = true
    · rw [if_pos hcond] at hmeq
      rw [← hmeq]
    · rw [Bool.not_eq_true] at hcond
      rw [if_neg (by rw [hcond]; exact Bool.false_ne_true)] at hmeq
      subst hmeq
      have ha : (m.conversationId == c) = true := by
        rw [hc2]
        simp
      have hb : (m.recipient == some u) = true := by
        rw [hr2]
        simp
      rw [ha, hb] at hcond
      simp only [Bool.true_and] at hcond
      cases hread : m.read with
      | true => rfl
      | false =>
        rw [hread] at hcond
        simp at hcond
  · rw [counterOf_mk_saved st _ _ c u
      { cv with unreadCount := mapSet cv.unreadCount u 0 } hcvid]
    exact getOr0_mapSet_self cv.unreadCount u 0

/-- A two-participant conversation record used by concrete witnesses. -/
def sampleConv : Conv :=
  { id := "c", participants := ["A", "B"], lastMessage := some 0,
    unreadCount := [("B", 1)] }

/-- A store holding one unread message from A to B inside conversation
`sampleConv`. -/
def sampleStore : ChatState :=
  { messages := [mkMsg 0 "A" (some "B") "c"], convs := [sampleConv],
    nextId := 1 }

/-- Witness for C9: B fetches the conversation page; the one unread message
addressed to B is marked read and B's counter drops to zero. -/
theorem C9_getMessages_marks_all_unread_witness :
    findConv sampleStore.convs "c" = some sampleConv ∧
    sampleConv.participants.contains "B" = true ∧
    ((∃ page : List Msg,
        (getMessagesR sampleStore "B" "c" 0 0).1 = Except.ok page) ∧
     (∀ m2 ∈ (getMessagesR sampleStore "B" "c" 0 0).2.messages,
        m2.conversationId = "c" → m2.recipient = some "B" →
          m2.read = true) ∧
     counterOf (getMessagesR sampleStore "B" "c" 0 0).2 "c" "B" = 0) :=
  ⟨rfl, by decide,
    C9_getMessages_marks_all_unread sampleStore "B" "c" 0 0 sampleConv rfl
      (by decide)⟩

/-- Claim C10 (confirmed): markAsRead sets `read=true` on every stored
message whose id is listed — with no condition on the message's recipient or
on the conversation the call names — and leaves unlisted messages
untouched. -/
theorem C10_markAsRead_marks_listed (st : ChatState) (u c : String)
    (l : List Nat) (m : Msg) (hm : m ∈ st.messages) :
    (l.contains m.id = true →
      { m with read := true } ∈ (markAsReadF st u c l).1.messages) ∧
    (l.contains m.id = false →
      m ∈ (markAsReadF st u c l).1.messages) := by
  have hmsgs : (markAsReadF st u c l).1.messages =
      st.messages.map (markOne l) := by
    rw [markAsReadF_state]
    cases findConv st.convs c <;> rfl
  constructor
  · intro hcon
    rw [hmsgs, ← markOne_of_contains l m hcon]
    exact List.mem_map_of_mem (markOne l) hm
  · intro hcon
    rw [hmsgs, ← markOne_of_not_contains l m hcon]
    exact List.mem_map_of_mem (markOne l) hm

/-- Witness for C10: user "X" calls markAsRead naming conversation "other";
the listed message belongs to conversation "c" and is addressed to "B", yet
it is marked read; an unlisted message is untouched. -/
theorem C10_markAsRead_marks_listed_witness :
    ((mkMsg 0 "A" (some "B") "c") ∈ sampleStore.messages ∧
      [0].contains (mkMsg 0 "A" (some "B") "c").id = true ∧
      { mkMsg 0 "A" (some "B") "c" with read := true } ∈
        (markAsReadF sampleStore "X" "other" [0]).1.messages) ∧
    ((mkMsg 0 "A" (some "B") "c") ∈ sampleStore.messages ∧
      [7].contains (mkMsg 0 "A" (some "B") "c").id = false ∧
      (mkMsg 0 "A" (some "B") "c") ∈
        (markAsReadF sampleStore "X" "other" [7]).1.messages) :=
  ⟨⟨by decide, by decide,
    (C10_markAsRead_marks_listed sampleStore "X" "other" [0]
      (mkMsg 0 "A" (some "B") "c") (by decide)).1 (by decide)⟩,
   ⟨by decide, by decide,
    (C10_markAsRead_marks_listed sampleStore "X" "other" [7]
      (mkMsg 0 "A" (some "B") "c") (by decide)).2 (by decide)⟩⟩
